import Mathlib

/-!
Verification development for the deepdarshak data pipeline.

This file gives a shallow embedding of the three algorithmic cores of the
repository and proves properties about them:

* `downsample_rows` and its index computation, from
  `src/api/app/services/map_service.py` (`downsample_rows`);
* the batch validator `validate_and_clean_df`, from `src/scripts/cleaning.py`;
* the speed-based outlier filter `filter_outliers_by_speed`, the haversine
  distance, and the GeoJSON feature encoder `_rows_to_geojson_features`,
  from `src/api/app/services/map_service.py`.

Numbers that are Python floats in the source are modelled as exact rationals
(for data values) and real numbers (for the trigonometric distance
computation); Python `datetime` values are modelled as rational numbers of
seconds since an epoch, so that subtraction of two timestamps yields the
elapsed seconds, as `(ts - prev_ts).total_seconds()` does in the source.
-/

namespace DeepDarshak

/-! ## Downsampling (`map_service.downsample_rows`)

The Python source is

```
def downsample_rows(rows, max_points: int):
    n = len(rows)
    if n <= max_points:
        return rows
    step = math.ceil(n / max_points)
    sampled = rows[::step]
    # ensure last point is included
    if sampled[-1] is not rows[-1]:
        sampled.append(rows[-1])
    # if oversampled slightly, trim
    if len(sampled) > max_points:
        sampled = sampled[:max_points]
    return sampled
```

`max_points` is a Python `int`, which may be negative, so it is modelled as
`Int`.  Slicing `rows[::step]` keeps the list elements at a computable set of
indices (for a positive step the indices `0, step, 2*step, ...`; for a
negative step the indices `n-1, n-1-|step|, ...`), and the identity test
`sampled[-1] is not rows[-1]` compares object identity, i.e. it asks whether
the index `n-1` was hit by the slice (the row objects returned by the
database driver are pairwise distinct objects even when equal as values).
We therefore compute the list of selected *indices* first
(`downsample_idx`) and then read the rows off at those indices
(`downsample_rows`).  Python raises `ZeroDivisionError` for
`max_points = 0` and `ValueError` when the computed slice step is `0`;
both are modelled by the `Except.error` branches.
-/

/-- `math.ceil(a / b)` for integers `a`, `b` (`b ≠ 0`): the ceiling of the
exact quotient, computed as `-((-a) fdiv b)`. -/
def ceilDivInt (a b : Int) : Int := -((-a).fdiv b)

/-- Python `l[:m]`: for `m ≥ 0` the first `m` elements, for `m < 0` all but
the last `-m` elements. -/
def pyTake (m : Int) (l : List α) : List α :=
  if 0 ≤ m then l.take m.toNat else l.take (l.length - (-m).toNat)

/-- The indices selected by the Python slice `rows[::s]` for a positive step
`s` on a list of length `n`: `0, s, 2s, ...`, i.e. `⌈n/s⌉` many. -/
def strideIdxFwd (n s : Nat) : List Nat :=
  (List.range ((n + s - 1) / s)).map (fun i => i * s)

/-- The indices selected by the Python slice `rows[::-s]` (negative step) on a
list of length `n`: `n-1, n-1-s, n-1-2s, ...`, i.e. `⌈n/s⌉` many. -/
def strideIdxRev (n s : Nat) : List Nat :=
  (List.range ((n + s - 1) / s)).map (fun i => n - 1 - i * s)

/-- The indices of the rows kept by `downsample_rows` on an input of length
`n`, or the error that Python raises. -/
def downsample_idx (n : Nat) (max_points : Int) : Except String (List Nat) :=
  if (n : Int) ≤ max_points then .ok (List.range n)
  else if max_points = 0 then .error "ZeroDivisionError: division by zero"
  else
    let step := ceilDivInt n max_points
    if step = 0 then .error "ValueError: slice step cannot be zero"
    else
      let ixs := if 0 < step then strideIdxFwd n step.toNat
                 else strideIdxRev n (-step).toNat
      let ixs2 := if ixs.getLast? = some (n - 1) then ixs else ixs ++ [n - 1]
      if max_points < (ixs2.length : Int) then .ok (pyTake max_points ixs2)
      else .ok ixs2

/-- `map_service.downsample_rows`: read the rows off at the selected
indices. -/
def downsample_rows (rows : List α) (max_points : Int) :
    Except String (List α) :=
  (downsample_idx rows.length max_points).map
    (fun ixs => ixs.filterMap (fun i => rows.get? i))

example : downsample_rows [10, 20, 30] (5 : Int) = .ok [10, 20, 30] := rfl
example : downsample_rows (List.range 5) (4 : Int) = .ok [0, 2, 4] := rfl
example : downsample_rows (List.range 5) (2 : Int) = .ok [0, 3] := rfl
example : downsample_rows (List.range 9) (4 : Int) = .ok [0, 3, 6, 8] := rfl
example : downsample_rows (List.range 5) (-2 : Int) = .ok [4, 2] := rfl
example : downsample_rows (List.range 5) (0 : Int)
    = .error "ZeroDivisionError: division by zero" := rfl
example : downsample_rows (List.range 5) (-6 : Int)
    = .error "ValueError: slice step cannot be zero" := rfl

/-! ## Batch validation (`scripts/cleaning.validate_and_clean_df`)

A pandas `DataFrame` row is modelled as a record of optional fields
(`none` models a null / missing / unparsable-as-numeric value; pandas
`to_numeric(errors="coerce")` turns an unparsable value into NaN, which the
subsequent range filter drops, so nulls, NaNs and unparsable strings can be
conflated into `none`).  The `MMSI` column is modelled by its string
rendering `str(val)` and `str.isdigit` by ASCII digit characters.
`BaseDateTime` is modelled as rational seconds, the numeric columns as
rationals, the descriptive columns as strings.  A `DataFrame` additionally
carries its set of columns: the source checks `col in df.columns` for the
non-critical columns, a batch-level property. -/

structure AisRow where
  MMSI : Option String
  BaseDateTime : Option ℚ
  LAT : Option ℚ
  LON : Option ℚ
  SOG : Option ℚ
  COG : Option ℚ
  Heading : Option ℚ
  VesselName : Option String
  IMO : Option String
  CallSign : Option String
  VesselType : Option ℚ
  Length : Option ℚ
  Width : Option ℚ
  Draft : Option ℚ
  Cargo : Option ℚ
  Destination : Option String
  ETA : Option String
  NavigationalStatus : Option String
deriving DecidableEq, Inhabited

/-- A pandas DataFrame of AIS rows: the list of non-critical column names
present in this batch's schema, and the rows. -/
structure DFrame where
  cols : List String
  rows : List AisRow
deriving DecidableEq

/-- `is_valid_mmsi` from `cleaning.py`: `str(val).isdigit() and len(str(val)) == 9`
(Python `isdigit` is false on the empty string). -/
def is_valid_mmsi (s : String) : Bool :=
  (!s.isEmpty && s.toList.all Char.isDigit) && s.length == 9

/-- The list of candidate non-critical columns in `cleaning.py`. -/
def non_critical_all : List String :=
  ["VesselName", "IMO", "CallSign", "VesselType", "Length", "Width", "Draft",
   "Cargo", "Destination", "ETA", "NavigationalStatus"]

/-- Whether the named non-critical column is null on this row
(`df[non_critical].isnull()`). -/
def ncNull (r : AisRow) (col : String) : Bool :=
  if col = "VesselName" then r.VesselName.isNone
  else if col = "IMO" then r.IMO.isNone
  else if col = "CallSign" then r.CallSign.isNone
  else if col = "VesselType" then r.VesselType.isNone
  else if col = "Length" then r.Length.isNone
  else if col = "Width" then r.Width.isNone
  else if col = "Draft" then r.Draft.isNone
  else if col = "Cargo" then r.Cargo.isNone
  else if col = "Destination" then r.Destination.isNone
  else if col = "ETA" then r.ETA.isNone
  else if col = "NavigationalStatus" then r.NavigationalStatus.isNone
  else false

/-- Append a flag to a `flag_reason` string, with the source's comma logic
`x + ("," if x else "") + flag`. -/
def addFlag (x flag : String) : String :=
  x ++ (if x = "" then "" else ",") ++ flag

/-- Split a comma-separated `flag_reason` string into its flags
(structurally over the character list, so that it evaluates by kernel
reduction). -/
def splitFlagsAux : List Char → List Char → List String
  | [], acc => [String.mk acc.reverse]
  | c :: cs, acc =>
      if c = ',' then String.mk acc.reverse :: splitFlagsAux cs []
      else splitFlagsAux cs (c :: acc)

/-- Flag membership in a comma-separated `flag_reason` string. -/
def hasFlag (x flag : String) : Bool :=
  (splitFlagsAux x.toList []).contains flag

/-- The dropna / MMSI / latitude-longitude filters of
`validate_and_clean_df`, in source order:
1. `df.dropna(subset=["MMSI", "BaseDateTime"])`;
2. keep rows whose MMSI passes `is_valid_mmsi`;
3. keep rows with numeric LAT/LON with lat in [-90, 90], lon in [-180, 180]
   (the subsequent `dropna(subset=["LAT", "LON"])` drops nothing further,
   since a row with a null coordinate already fails the range mask). -/
def validRows (df : DFrame) : List AisRow :=
  ((df.rows.filter
      (fun r => r.MMSI.isSome && r.BaseDateTime.isSome)).filter
      (fun r => match r.MMSI with
        | some s => is_valid_mmsi s
        | none => false)).filter
      (fun r => match r.LAT, r.LON with
        | some a, some o =>
            decide (-90 ≤ a) && decide (a ≤ 90) &&
            decide (-180 ≤ o) && decide (o ≤ 180)
        | _, _ => false)

/-- The `flag_reason` string computed for a surviving row `r` of the batch
`df`: `zero_position`, then `missing_non_critical`, then
`same_time_duplicate` (the last depends on how many surviving rows of the
batch share this row's `(MMSI, BaseDateTime)` key; `keep=False` marks every
member of a key group of size at least 2). -/
def flagOf (df : DFrame) (r : AisRow) : String :=
  let f0 := ""
  let f1 := if r.LAT = some 0 ∧ r.LON = some 0 then f0 ++ "zero_position" else f0
  let nc := non_critical_all.filter (fun c => df.cols.contains c)
  let f2 := if nc ≠ [] ∧ nc.any (ncNull r) then addFlag f1 "missing_non_critical"
            else f1
  if 2 ≤ (validRows df).countP
      (fun r2 => r2.MMSI = r.MMSI ∧ r2.BaseDateTime = r.BaseDateTime)
  then addFlag f2 "same_time_duplicate" else f2

/-- `df.drop_duplicates()`: keep the first occurrence of each full-row
value. -/
def dropDupsFirstAux [DecidableEq β] (seen : List β) : List β → List β
  | [] => []
  | x :: xs =>
      if x ∈ seen then dropDupsFirstAux seen xs
      else x :: dropDupsFirstAux (x :: seen) xs

/-- `df.drop_duplicates()` with an empty memory of seen rows. -/
def dropDupsFirst [DecidableEq β] (l : List β) : List β :=
  dropDupsFirstAux [] l

/-- `validate_and_clean_df` from `cleaning.py`: returns the cleaned rows,
each paired with its `flag_reason` string, and the dropped count
`initial - len(df)`.  Note that `drop_duplicates` runs after the flag
columns are added, so it compares rows together with their flags. -/
def validate_and_clean_df (df : DFrame) : List (AisRow × String) × Nat :=
  let initial := df.rows.length
  let flagged := (validRows df).map (fun r => (r, flagOf df r))
  let final := dropDupsFirst flagged
  (final, initial - final.length)

/-- A sample valid row used in concrete scenarios. -/
def rowA : AisRow :=
  { MMSI := some "211000000", BaseDateTime := some 100, LAT := some 1,
    LON := some 2, SOG := some 5, COG := none, Heading := none,
    VesselName := none, IMO := none, CallSign := none, VesselType := none,
    Length := none, Width := none, Draft := none, Cargo := none,
    Destination := none, ETA := none, NavigationalStatus := none }

/-- `rowA` with a different speed-over-ground. -/
def rowB : AisRow := { rowA with SOG := some 7 }

example :
    validate_and_clean_df ⟨[], [rowA, rowB, rowA]⟩
      = ([(rowA, "same_time_duplicate"), (rowB, "same_time_duplicate")], 1) := by
  decide

example :
    validate_and_clean_df ⟨[], [rowA, rowA]⟩
      = ([(rowA, "same_time_duplicate")], 1) := by decide

example :
    validate_and_clean_df ⟨[], [rowA]⟩ = ([(rowA, "")], 0) := by decide

/-! ## Trajectory sanitization (`map_service`)

A row mapping returned by `POSITIONS_QUERY` has keys `mmsi`, `timestamp`,
`lat`, `lon`, `sog`, `cog`, `heading`; the sanitizer and the encoder use all
but `mmsi`.  Coordinates and motion attributes are modelled as optional
rationals, the timestamp as optional rational seconds. -/

structure Row where
  lat : Option ℚ
  lon : Option ℚ
  timestamp : Option ℚ
  sog : Option ℚ
  cog : Option ℚ
  heading : Option ℚ
deriving DecidableEq, Inhabited

/-- `math.radians`. -/
noncomputable def radians (x : ℝ) : ℝ := x * Real.pi / 180

/-- `math.atan2 y x`. -/
noncomputable def atan2 (y x : ℝ) : ℝ :=
  if 0 < x then Real.arctan (y / x)
  else if x < 0 then
    (if 0 ≤ y then Real.arctan (y / x) + Real.pi
     else Real.arctan (y / x) - Real.pi)
  else if 0 < y then Real.pi / 2
  else if y < 0 then -(Real.pi / 2)
  else 0

/-- `map_service.haversine_km`: great-circle distance in kilometres. -/
noncomputable def haversine_km (lat1 lon1 lat2 lon2 : ℝ) : ℝ :=
  let R : ℝ := 6371.0
  let lat1_r := radians lat1
  let lon1_r := radians lon1
  let lat2_r := radians lat2
  let lon2_r := radians lon2
  let dlat := lat2_r - lat1_r
  let dlon := lon2_r - lon1_r
  let a := Real.sin (dlat / 2) ^ 2 +
    Real.cos lat1_r * Real.cos lat2_r * Real.sin (dlon / 2) ^ 2
  let c := 2 * atan2 (Real.sqrt a) (Real.sqrt (1 - a))
  R * c

/-- The derived speed `dist_km / (dt / 3600.0)` between two positions, with
`dt` the elapsed seconds. -/
noncomputable def speedKph (lat1 lon1 lat2 lon2 dt : ℝ) : ℝ :=
  haversine_km lat1 lon1 lat2 lon2 / (dt / 3600)

open Classical in
/-- One iteration of the `filter_outliers_by_speed` loop, operating on the
state `(cleaned, prev)`.  The source's `try/except` around the timestamp
subtraction can only fail, for well-typed rows, when the previous accepted
row has no timestamp (then the candidate is kept unconditionally: "if types
unexpected, keep point"); an accepted row always has a timestamp, so that
branch is unreachable from the initial state.  Were the anchor's coordinates
missing, Python would raise inside `haversine_km`; this is likewise
unreachable and is modelled by a default of `0`. -/
noncomputable def filterStep (max_speed_kph : ℝ) (st : List Row × Option Row)
    (r : Row) : List Row × Option Row :=
  match r.lat, r.lon, r.timestamp with
  | some lat, some lon, some ts =>
    match st.2 with
    | none => (st.1 ++ [r], some r)
    | some prev =>
      match prev.timestamp with
      | none => (st.1 ++ [r], some r)
      | some pts =>
        let dt := ts - pts
        if dt ≤ 0 then st
        else if max_speed_kph <
            speedKph (prev.lat.getD 0) (prev.lon.getD 0) lat lon (dt : ℝ)
          then st
        else (st.1 ++ [r], some r)
  | _, _, _ => st

/-- `map_service.filter_outliers_by_speed` (the source's early return for an
empty input coincides with folding over the empty list). -/
noncomputable def filter_outliers_by_speed (rows : List Row)
    (max_speed_kph : ℝ) : List Row :=
  (rows.foldl (filterStep max_speed_kph) ([], none)).1

/-! ## Feature encoding (`map_service._rows_to_geojson_features`) -/

/-- The textual rendering `datetime.isoformat()` of a timestamp.  The
`datetime` type is external to the repository; what matters here is that a
present timestamp is rendered to *some* normalized text and an absent one to
null, so the rendering is modelled by the decimal rendering of the rational
second count. -/
def isoformat (t : ℚ) : String := toString t

/-- A GeoJSON point feature: the `"coordinates"` list of the `"Point"`
geometry (in the source's order `[lon, lat]`) and the `"properties"` bag. -/
structure Feature where
  coordinates : List ℚ
  time : Option String
  sog : Option ℚ
  cog : Option ℚ
  heading : Option ℚ
deriving DecidableEq

/-- `map_service._rows_to_geojson_features`: the source's loop, appending one
feature per row that has both coordinates. -/
def rows_to_geojson_features (rows : List Row) : List Feature :=
  rows.foldl
    (fun acc r =>
      match r.lat, r.lon with
      | some la, some lo =>
          acc ++ [{ coordinates := [lo, la],
                    time := r.timestamp.map isoformat,
                    sog := r.sog, cog := r.cog, heading := r.heading }]
      | _, _ => acc)
    []

example :
    rows_to_geojson_features
      [{ lat := some 1, lon := some 2, timestamp := some 10, sog := some 3,
         cog := none, heading := none },
       { lat := none, lon := some 4, timestamp := some 11, sog := none,
         cog := none, heading := none }]
      = [{ coordinates := [2, 1], time := some "10", sog := some 3,
           cog := none, heading := none }] := by decide

/-! ### Lemmas about the downsampling computation -/

/-- `⌈n / m⌉` on naturals. -/
def ceilDiv (n m : Nat) : Nat := (n + m - 1) / m

lemma ceilDivInt_natCast (n m : Nat) (hm : 0 < m) :
    ceilDivInt (n : Int) (m : Int) = (ceilDiv n m : Int) := by
  have hM : (0 : Int) < m := by exact_mod_cast hm
  have hq1 : ceilDiv n m * m ≤ n + m - 1 := Nat.div_mul_le_self _ _
  have hq2 : n + m - 1 < (ceilDiv n m + 1) * m :=
    (Nat.div_lt_iff_lt_mul hm).1 (Nat.lt_succ_self _)
  have hnm : 1 ≤ n + m := by omega
  have hsub : ((n + m - 1 : Nat) : Int) = (n : Int) + m - 1 := by
    push_cast [Nat.cast_sub hnm]; ring
  have hcast1 : (ceilDiv n m : Int) * m ≤ (n : Int) + m - 1 := by
    rw [← hsub]; exact_mod_cast hq1
  have hcast2 : (n : Int) + m - 1 < ((ceilDiv n m : Int) + 1) * m := by
    rw [← hsub]; exact_mod_cast hq2
  have e1 : -(n : Int) / m * m ≤ -(n : Int) := Int.ediv_mul_le _ (ne_of_gt hM)
  have e2 : -(n : Int) < (-(n : Int) / m + 1) * m :=
    Int.lt_ediv_add_one_mul_self _ hM
  unfold ceilDivInt
  rw [Int.fdiv_eq_ediv _ (le_of_lt hM)]
  set e := -(n : Int) / m with he
  set Q := (ceilDiv n m : Int) with hQ
  rcases lt_trichotomy e (-Q) with h | h | h
  · exfalso
    have h1 : e + 1 ≤ -Q := by omega
    have h2 : (e + 1) * m ≤ -Q * m :=
      mul_le_mul_of_nonneg_right h1 (le_of_lt hM)
    nlinarith
  · omega
  · exfalso
    have h1 : -Q + 1 ≤ e := by omega
    have h2 : (-Q + 1) * m ≤ e * m :=
      mul_le_mul_of_nonneg_right h1 (le_of_lt hM)
    nlinarith

lemma ceilDiv_pos (n m : Nat) (hn : 0 < n) (hm : 0 < m) : 0 < ceilDiv n m := by
  have := Nat.div_pos (by omega : m ≤ n + m - 1) hm
  simpa [ceilDiv] using this

/-- The ceiling quotient times the divisor dominates the dividend. -/
lemma le_ceilDiv_mul (n m : Nat) (hm : 0 < m) : n ≤ ceilDiv n m * m := by
  obtain ⟨X, hX⟩ : ∃ X, m * ((n + m - 1) / m) = X := ⟨_, rfl⟩
  have heq := Nat.div_add_mod (n + m - 1) m
  have hr : (n + m - 1) % m < m := Nat.mod_lt _ hm
  rw [hX] at heq
  have : n ≤ X := by omega
  calc n ≤ X := this
    _ = ceilDiv n m * m := by rw [← hX, Nat.mul_comm]; rfl

lemma ceilDiv_le (n m : Nat) (h1 : 0 < m) (h2 : m < n) :
    ceilDiv n (ceilDiv n m) ≤ m := by
  have hn : 0 < n := lt_trans h1 h2
  set s := ceilDiv n m with hs
  have hs2 : 0 < s := ceilDiv_pos n m hn h1
  have hsm : n ≤ s * m := le_ceilDiv_mul n m h1
  have hlt : n + s - 1 < s * m + s :=
    lt_of_lt_of_le (by omega) (Nat.add_le_add_right hsm s)
  have hlt2 : n + s - 1 < (m + 1) * s := by
    calc n + s - 1 < s * m + s := hlt
      _ = (m + 1) * s := by ring
  have := (Nat.div_lt_iff_lt_mul hs2).2 hlt2
  simpa [ceilDiv] using Nat.lt_succ_iff.1 this

lemma strideIdxFwd_eq (n s : Nat) :
    strideIdxFwd n s = (List.range (ceilDiv n s)).map (fun i => i * s) := rfl

lemma strideIdxFwd_pairwise (n s : Nat) (hs : 0 < s) :
    (strideIdxFwd n s).Pairwise (· < ·) := by
  rw [strideIdxFwd_eq]
  exact (List.pairwise_lt_range _).map _
    (fun a b h => (Nat.mul_lt_mul_right hs).2 h)

lemma ceilDiv_of_pos (n s : Nat) (hn : 0 < n) (hs : 0 < s) :
    ceilDiv n s = (n - 1) / s + 1 := by
  have : n + s - 1 = (n - 1) + s := by omega
  simp only [ceilDiv, this, Nat.add_div_right _ hs]

lemma strideIdxFwd_bound (n s : Nat) (hn : 0 < n) (hs : 0 < s) :
    ∀ i ∈ strideIdxFwd n s, i ≤ n - 1 := by
  intro i hi
  rw [strideIdxFwd_eq] at hi
  obtain ⟨j, hj, rfl⟩ := List.mem_map.1 hi
  rw [List.mem_range, ceilDiv_of_pos n s hn hs] at hj
  have hj' : j ≤ (n - 1) / s := Nat.lt_succ_iff.1 hj
  calc j * s ≤ (n - 1) / s * s := Nat.mul_le_mul_right s hj'
    _ ≤ n - 1 := Nat.div_mul_le_self _ _

lemma strideIdxFwd_head (n s : Nat) (hn : 0 < n) (hs : 0 < s) :
    (strideIdxFwd n s).head? = some 0 := by
  have hk : 0 < ceilDiv n s := ceilDiv_pos n s hn hs
  obtain ⟨k, hk'⟩ := Nat.exists_eq_add_of_lt hk
  rw [strideIdxFwd_eq, hk', Nat.zero_add, List.range_succ_eq_map]
  simp

lemma strideIdxFwd_getLast (n s : Nat) (hn : 0 < n) (hs : 0 < s) :
    (strideIdxFwd n s).getLast? = some ((ceilDiv n s - 1) * s) := by
  have hk : 0 < ceilDiv n s := ceilDiv_pos n s hn hs
  obtain ⟨k, hk'⟩ := Nat.exists_eq_add_of_lt hk
  rw [strideIdxFwd_eq, hk', Nat.zero_add, List.range_succ, List.map_append]
  simp

lemma strideIdxFwd_length (n s : Nat) :
    (strideIdxFwd n s).length = ceilDiv n s := by
  rw [strideIdxFwd_eq]; simp

/-! ### Reading rows off a list of indices -/

lemma get?_eq_some_of_lt (l : List α) (i : Nat) (h : i < l.length) :
    l.get? i = some (l.get ⟨i, h⟩) := List.get?_eq_get h

lemma filterMap_get?_length (l : List α) :
    ∀ ixs : List Nat, (∀ i ∈ ixs, i < l.length) →
      (ixs.filterMap (fun i => l.get? i)).length = ixs.length := by
  intro ixs
  induction ixs with
  | nil => intro _; rfl
  | cons i rest ih =>
    intro h
    have hi : i < l.length := h i (List.mem_cons_self i rest)
    rw [List.filterMap_cons, get?_eq_some_of_lt l i hi]
    simp only [List.length_cons]
    rw [ih (fun j hj => h j (List.mem_cons_of_mem i hj))]

lemma filterMap_get?_head (l : List α) (i : Nat) (rest : List Nat)
    (h : i < l.length) :
    ((i :: rest).filterMap (fun j => l.get? j)).head? = l.get? i := by
  rw [List.filterMap_cons, get?_eq_some_of_lt l i h, List.head?_cons]

lemma filterMap_get?_getLast (l : List α) (ixs : List Nat) (i : Nat)
    (h : i < l.length) :
    ((ixs ++ [i]).filterMap (fun j => l.get? j)).getLast? = l.get? i := by
  rw [List.filterMap_append, List.filterMap_cons, get?_eq_some_of_lt l i h,
    List.filterMap_nil, List.getLast?_concat]

lemma filterMap_get?_sublist_aux (l : List α) :
    ∀ ixs : List Nat, ixs.Pairwise (· < ·) → (∀ i ∈ ixs, i < l.length) →
      ∀ n, (∀ i ∈ ixs, n ≤ i) →
      (ixs.filterMap (fun i => l.get? i)).Sublist (l.drop n) := by
  intro ixs
  induction ixs with
  | nil => intro _ _ n _; simp
  | cons i rest ih =>
    intro hp hb n hn
    have hi : i < l.length := hb i (List.mem_cons_self i rest)
    have hrest : ∀ j ∈ rest, i < j := (List.pairwise_cons.1 hp).1
    have h1 : (rest.filterMap (fun j => l.get? j)).Sublist (l.drop (i + 1)) :=
      ih (List.pairwise_cons.1 hp).2
        (fun j hj => hb j (List.mem_cons_of_mem i hj))
        (i + 1) (fun j hj => hrest j hj)
    have h2 : ((i :: rest).filterMap (fun j => l.get? j)).Sublist (l.drop i) := by
      rw [List.filterMap_cons, get?_eq_some_of_lt l i hi,
        List.drop_eq_getElem_cons hi]
      exact h1.cons₂ _
    have h3 : l.drop i = (l.drop n).drop (i - n) := by
      rw [List.drop_drop]
      congr 1
      have := hn i (List.mem_cons_self i rest)
      omega
    rw [h3] at h2
    exact h2.trans (List.drop_sublist _ _)

lemma filterMap_get?_sublist (l : List α) (ixs : List Nat)
    (hp : ixs.Pairwise (· < ·)) (hb : ∀ i ∈ ixs, i < l.length) :
    (ixs.filterMap (fun i => l.get? i)).Sublist l := by
  simpa using filterMap_get?_sublist_aux l ixs hp hb 0 (fun i _ => Nat.zero_le i)

lemma filterMap_get?_range (l : List α) :
    (List.range l.length).filterMap (fun i => l.get? i) = l := by
  induction l with
  | nil => rfl
  | cons a t ih =>
    simp only [List.length_cons, List.range_succ_eq_map, List.filterMap_cons,
      List.get?_cons_zero, List.filterMap_map]
    rw [show ((fun i => (a :: t).get? i) ∘ Nat.succ) = (fun i => t.get? i)
      from rfl, ih]

lemma strideIdxFwd_le_last (n s : Nat) :
    ∀ i ∈ strideIdxFwd n s, i ≤ (ceilDiv n s - 1) * s := by
  intro i hi
  rw [strideIdxFwd_eq] at hi
  obtain ⟨j, hj, rfl⟩ := List.mem_map.1 hi
  rw [List.mem_range] at hj
  exact Nat.mul_le_mul_right s (by omega)

/-- The combined behaviour of `downsample_idx` for a positive `max_points`:
no error is raised, at most `max_points` indices are selected, they are
strictly increasing and in range, the first selected index is `0`, and —
provided the stride sample is strictly smaller than `max_points` — the last
selected index is `n - 1`. -/
lemma downsample_idx_spec (n : Nat) (mp : Int) (hmp : 1 ≤ mp) :
    ∃ ixs, downsample_idx n mp = .ok ixs ∧
      (ixs.length : Int) ≤ mp ∧
      ixs.Pairwise (· < ·) ∧
      (∀ i ∈ ixs, i < n) ∧
      (0 < n → ixs.head? = some 0) ∧
      (0 < n → ceilDiv n (ceilDiv n mp.toNat) < mp.toNat →
        ixs.getLast? = some (n - 1)) := by
  by_cases hle : (n : Int) ≤ mp
  · refine ⟨List.range n, ?_, ?_, List.pairwise_lt_range n, ?_, ?_, ?_⟩
    · rw [downsample_idx, if_pos hle]
    · simpa using hle
    · intro i hi; exact List.mem_range.1 hi
    · intro hn; rw [List.head?_range, if_neg (by omega)]
    · intro hn _; rw [List.getLast?_range, if_neg (by omega)]
  · push_neg at hle
    have hmp0 : mp ≠ 0 := by omega
    have hmpN : (mp.toNat : Int) = mp := Int.toNat_of_nonneg (by omega)
    set mN := mp.toNat with hmN
    have hmN1 : 1 ≤ mN := by omega
    have hmNn : mN < n := by exact_mod_cast hmpN ▸ hle
    have hn : 0 < n := by omega
    set s := ceilDiv n mN with hs
    have hs1 : 0 < s := ceilDiv_pos n mN hn hmN1
    have hstep : ceilDivInt (n : Int) mp = (s : Int) := by
      rw [← hmpN]; exact ceilDivInt_natCast n mN hmN1
    set k := ceilDiv n s with hk
    have hk1 : 0 < k := ceilDiv_pos n s hn hs1
    have hkm : k ≤ mN := ceilDiv_le n mN hmN1 hmNn
    have hpw := strideIdxFwd_pairwise n s hs1
    have hbd := strideIdxFwd_bound n s hn hs1
    have hhd := strideIdxFwd_head n s hn hs1
    have hlast := strideIdxFwd_getLast n s hn hs1
    rw [← hk] at hlast
    have hlen : (strideIdxFwd n s).length = k := strideIdxFwd_length n s
    have hsne : ¬((s : Int) = 0) := by
      exact_mod_cast Nat.pos_iff_ne_zero.1 hs1
    have hspos : (0 : Int) < (s : Int) := by exact_mod_cast hs1
    simp only [downsample_idx]
    rw [if_neg (not_le.2 hle), if_neg hmp0, hstep]
    rw [if_neg hsne, if_pos hspos, Int.toNat_natCast]
    by_cases hL : (strideIdxFwd n s).getLast? = some (n - 1)
    · rw [if_pos hL]
      have hnotrim : ¬ mp < ((strideIdxFwd n s).length : Int) := by
        rw [hlen]; omega
      rw [if_neg hnotrim]
      refine ⟨strideIdxFwd n s, rfl, by rw [hlen]; omega, hpw, ?_, ?_, ?_⟩
      · intro i hi; have := hbd i hi; omega
      · intro _; exact hhd
      · intro _ _; exact hL
    · rw [if_neg hL]
      have hlen2 : (strideIdxFwd n s ++ [n - 1]).length = k + 1 := by
        rw [List.length_append, hlen]; rfl
      have hblt : ∀ i ∈ strideIdxFwd n s, i < n - 1 := by
        intro i hi
        have h1 := strideIdxFwd_le_last n s i hi
        rw [← hk] at h1
        have h2 : (k - 1) * s ≤ n - 1 := by
          have : (k - 1) * s ∈ strideIdxFwd n s := by
            rw [strideIdxFwd_eq]
            exact List.mem_map.2 ⟨k - 1, List.mem_range.2 (by omega), rfl⟩
          exact hbd _ this
        have h3 : (k - 1) * s ≠ n - 1 := by
          intro heq; exact hL (heq ▸ hlast)
        omega
      have hpw2 : (strideIdxFwd n s ++ [n - 1]).Pairwise (· < ·) := by
        rw [List.pairwise_append]
        exact ⟨hpw, List.pairwise_singleton _ _,
          fun a ha b hb => by
            rw [List.mem_singleton.1 hb]; exact hblt a ha⟩
      have hhd2 : (strideIdxFwd n s ++ [n - 1]).head? = some 0 := by
        rw [List.head?_append, hhd]; rfl
      have hL2 : (strideIdxFwd n s ++ [n - 1]).getLast? = some (n - 1) :=
        List.getLast?_concat _
      by_cases hTrim : mp < ((strideIdxFwd n s ++ [n - 1]).length : Int)
      · rw [if_pos hTrim]
        have htake : pyTake mp (strideIdxFwd n s ++ [n - 1])
            = (strideIdxFwd n s ++ [n - 1]).take mN := by
          rw [pyTake, if_pos (by omega : (0:Int) ≤ mp)]
        rw [htake]
        refine ⟨_, rfl, ?_, hpw2.sublist (List.take_sublist _ _), ?_, ?_, ?_⟩
        · have : ((strideIdxFwd n s ++ [n - 1]).take mN).length ≤ mN := by
            rw [List.length_take]; exact Nat.min_le_left _ _
          omega
        · intro i hi
          have := List.take_subset _ _ hi
          rcases List.mem_append.1 this with h | h
          · have := hbd i h; omega
          · rw [List.mem_singleton.1 h]; omega
        · intro _
          rw [List.head?_take, if_neg (by omega), hhd2]
        · -- under the sample-count bound the trim branch cannot occur
          intro _ hcond
          exfalso
          rw [hlen2] at hTrim
          have : k < mN := hcond
          push_cast at hTrim
          omega
      · rw [if_neg hTrim]
        refine ⟨_, rfl, by omega, hpw2, ?_, fun _ => hhd2, fun _ _ => hL2⟩
        intro i hi
        rcases List.mem_append.1 hi with h | h
        · have := hbd i h; omega
        · rw [List.mem_singleton.1 h]; omega

/-! ### Claims about downsampling -/

/-- C10: for every input sequence and every `max_points ≥ 1`, the output of
`downsample_rows` has length at most `max_points`, is a subsequence of the
input, and its first element equals the input's first element whenever the
input is non-empty. -/
theorem downsample_rows_at_most_subsequence {α : Type} (rows : List α)
    (max_points : Int) (hmp : 1 ≤ max_points) :
    ∃ l, downsample_rows rows max_points = .ok l ∧
      (l.length : Int) ≤ max_points ∧ l.Sublist rows ∧
      (rows ≠ [] → l.head? = rows.head?) := by
  obtain ⟨ixs, hok, hlen, hpw, hmem, hhead, _⟩ :=
    downsample_idx_spec rows.length max_points hmp
  refine ⟨ixs.filterMap (fun i => rows.get? i), ?_, ?_, ?_, ?_⟩
  · rw [downsample_rows, hok]; rfl
  · rw [filterMap_get?_length rows ixs hmem]; exact hlen
  · exact filterMap_get?_sublist rows ixs hpw hmem
  · intro hne
    have h0 : 0 < rows.length := List.length_pos.2 hne
    have hh := hhead h0
    obtain ⟨t, rfl⟩ : ∃ t, ixs = 0 :: t := by
      cases ixs with
      | nil => simp at hh
      | cons a t =>
        rw [List.head?_cons, Option.some.injEq] at hh
        exact ⟨t, by rw [hh]⟩
    rw [filterMap_get?_head rows 0 t h0, List.get?_zero]

/-- Witness for C10 at a concrete input. -/
theorem downsample_rows_at_most_subsequence_witness :
    (1 : Int) ≤ 2 ∧
    ∃ l, downsample_rows ([10, 20, 30] : List Nat) 2 = .ok l ∧
      (l.length : Int) ≤ 2 ∧ l.Sublist [10, 20, 30] ∧
      (([10, 20, 30] : List Nat) ≠ [] → l.head? = some 10) :=
  ⟨by decide, downsample_rows_at_most_subsequence [10, 20, 30] 2 (by decide)⟩

/-- C1 (amended): for `1 ≤ max_points < n`, the downsampling phase returns
at most `max_points` rows (not always exactly `max_points`), the first output
element equals the input's first element, and the last output element equals
the input's last element whenever the stride sample count
`⌈n / ⌈n / max_points⌉⌉` is strictly below `max_points` (so no trim
occurs). -/
theorem downsample_rows_endpoints {α : Type} (rows : List α)
    (max_points : Int) (h1 : 1 ≤ max_points)
    (h2 : max_points < (rows.length : Int)) :
    ∃ l, downsample_rows rows max_points = .ok l ∧
      (l.length : Int) ≤ max_points ∧
      l.head? = rows.head? ∧
      (ceilDiv rows.length (ceilDiv rows.length max_points.toNat)
          < max_points.toNat →
        l.getLast? = rows.getLast?) := by
  obtain ⟨ixs, hok, hlen, hpw, hmem, hhead, hlast⟩ :=
    downsample_idx_spec rows.length max_points h1
  have h0 : 0 < rows.length := by
    have : (0 : Int) < (rows.length : Int) := by omega
    exact_mod_cast this
  refine ⟨ixs.filterMap (fun i => rows.get? i), ?_, ?_, ?_, ?_⟩
  · rw [downsample_rows, hok]; rfl
  · rw [filterMap_get?_length rows ixs hmem]; exact hlen
  · have hh := hhead h0
    obtain ⟨t, rfl⟩ : ∃ t, ixs = 0 :: t := by
      cases ixs with
      | nil => simp at hh
      | cons a t =>
        rw [List.head?_cons, Option.some.injEq] at hh
        exact ⟨t, by rw [hh]⟩
    rw [filterMap_get?_head rows 0 t h0, List.get?_zero]
  · intro hcond
    have hl := hlast h0 hcond
    obtain ⟨init, rfl⟩ := List.getLast?_eq_some_iff.1 hl
    have hn1 : rows.length - 1 < rows.length := by omega
    rw [filterMap_get?_getLast rows init _ hn1, List.getLast?_eq_getElem?,
      List.get?_eq_getElem?]

/-- Witness for C1's amended claim at the 5000-point, `max_points = 2000`
scenario (there `⌈5000/⌈5000/2000⌉⌉ = 1667 < 2000`, so the last point is
preserved). -/
theorem downsample_rows_endpoints_witness :
    (1 : Int) ≤ 2000 ∧ (2000 : Int) < ((List.range 5000).length : Int) ∧
    (∃ l, downsample_rows (List.range 5000) 2000 = .ok l ∧
      (l.length : Int) ≤ 2000 ∧
      l.head? = (List.range 5000).head? ∧
      (ceilDiv (List.range 5000).length
          (ceilDiv (List.range 5000).length (2000 : Int).toNat)
          < (2000 : Int).toNat →
        l.getLast? = (List.range 5000).getLast?)) :=
  ⟨by decide, by norm_num,
    downsample_rows_endpoints (List.range 5000) 2000 (by decide) (by norm_num)⟩

/-- C1 counterexample: the claim "the output length is exactly `max_points`
and the last output element is the input's last element" fails on the code:
for the 5-element input `[0, 1, 2, 3, 4]` and `max_points = 4` the output is
`[0, 2, 4]` of length `3 ≠ 4`, and for `max_points = 2` the output is
`[0, 3]`, whose last element `3` differs from the input's last element `4`. -/
theorem downsample_rows_exact_length_counterexample :
    (Except.map List.length (downsample_rows (List.range 5) (4 : Int))
        = .ok 3 ∧ (3 : Nat) ≠ 4)
    ∧ (Except.map List.getLast? (downsample_rows (List.range 5) (2 : Int))
        = .ok (some 3)
      ∧ (List.range 5).getLast? = some 4 ∧ (3 : Nat) ≠ 4) :=
  ⟨⟨rfl, by decide⟩, rfl, by decide, by decide⟩

/-- C8: calling the downsampling phase with a negative `max_points` does not
fail fast with a descriptive error; the code silently computes a result
(here a negative stride of `-2` walks the 5-element input backwards and the
negative-index trim leaves `[rows[4], rows[2]]`). -/
theorem downsample_rows_negative_max_points_silent :
    downsample_rows (List.range 5) (-2 : Int) = .ok [4, 2] := rfl

/-! ### Lemmas about the batch validator -/

lemma dropDupsFirstAux_sublist [DecidableEq β] :
    ∀ (seen l : List β), (dropDupsFirstAux seen l).Sublist l := by
  intro seen l
  induction l generalizing seen with
  | nil => exact List.Sublist.refl _
  | cons x xs ih =>
    simp only [dropDupsFirstAux]
    split
    · exact (ih seen).cons x
    · exact (ih (x :: seen)).cons₂ x

lemma mem_dropDupsFirstAux [DecidableEq β] :
    ∀ (seen l : List β) (x : β),
      x ∈ dropDupsFirstAux seen l ↔ x ∈ l ∧ x ∉ seen := by
  intro seen l
  induction l generalizing seen with
  | nil => intro x; simp [dropDupsFirstAux]
  | cons y ys ih =>
    intro x
    simp only [dropDupsFirstAux]
    split
    · rename_i hy
      rw [ih seen x]
      constructor
      · rintro ⟨hx, hns⟩; exact ⟨List.mem_cons_of_mem y hx, hns⟩
      · rintro ⟨hor, hns⟩
        rcases List.mem_cons.1 hor with rfl | hx
        · exact absurd hy hns
        · exact ⟨hx, hns⟩
    · rename_i hy
      constructor
      · intro hmem
        rcases List.mem_cons.1 hmem with rfl | hmem2
        · exact ⟨List.mem_cons_self x ys, hy⟩
        · obtain ⟨hx, hns⟩ := (ih (y :: seen) x).1 hmem2
          exact ⟨List.mem_cons_of_mem y hx,
            fun h => hns (List.mem_cons_of_mem y h)⟩
      · rintro ⟨hor, hns⟩
        by_cases hxy : x = y
        · subst hxy; exact List.mem_cons_self x _
        · rcases List.mem_cons.1 hor with h' | hx
          · exact absurd h' hxy
          · exact List.mem_cons_of_mem y ((ih (y :: seen) x).2
              ⟨hx, fun h => (List.mem_cons.1 h).elim hxy hns⟩)

lemma dropDupsFirstAux_nodup [DecidableEq β] :
    ∀ (seen l : List β), (dropDupsFirstAux seen l).Nodup := by
  intro seen l
  induction l generalizing seen with
  | nil => exact List.nodup_nil
  | cons y ys ih =>
    simp only [dropDupsFirstAux]
    split
    · exact ih seen
    · refine List.nodup_cons.2 ⟨?_, ih (y :: seen)⟩
      intro hmem
      exact ((mem_dropDupsFirstAux _ _ _).1 hmem).2 (List.mem_cons_self y seen)

lemma dropDupsFirstAux_eq_self [DecidableEq β] :
    ∀ (seen l : List β), l.Nodup → (∀ x ∈ l, x ∉ seen) →
      dropDupsFirstAux seen l = l := by
  intro seen l
  induction l generalizing seen with
  | nil => intro _ _; rfl
  | cons y ys ih =>
    intro hnd hns
    simp only [dropDupsFirstAux]
    rw [if_neg (hns y (List.mem_cons_self y ys))]
    congr 1
    refine ih (y :: seen) (List.nodup_cons.1 hnd).2 ?_
    intro x hx hmem
    rcases List.mem_cons.1 hmem with rfl | hseen
    · exact (List.nodup_cons.1 hnd).1 hx
    · exact hns x (List.mem_cons_of_mem y hx) hseen

lemma validRows_sublist (df : DFrame) : (validRows df).Sublist df.rows := by
  simp only [validRows]
  exact ((List.filter_sublist _).trans (List.filter_sublist _)).trans
    (List.filter_sublist _)

lemma mem_validate_shape (df : DFrame) (p : AisRow × String)
    (h : p ∈ (validate_and_clean_df df).1) :
    p.1 ∈ validRows df ∧ p.2 = flagOf df p.1 := by
  simp only [validate_and_clean_df, dropDupsFirst] at h
  have h2 := ((mem_dropDupsFirstAux _ _ p).1 h).1
  obtain ⟨r, hr, rfl⟩ := List.mem_map.1 h2
  exact ⟨hr, rfl⟩

lemma mem_validRows_props (df : DFrame) (r : AisRow) (h : r ∈ validRows df) :
    (r.MMSI.isSome && r.BaseDateTime.isSome) = true ∧
    (match r.MMSI with
      | some s => is_valid_mmsi s
      | none => false) = true ∧
    (match r.LAT, r.LON with
      | some a, some o =>
          decide (-90 ≤ a) && decide (a ≤ 90) &&
          decide (-180 ≤ o) && decide (o ≤ 180)
      | _, _ => false) = true := by
  simp only [validRows] at h
  have h3 := List.mem_filter.1 h
  have h2 := List.mem_filter.1 h3.1
  have h1 := List.mem_filter.1 h2.1
  exact ⟨h1.2, h2.2, h3.2⟩

lemma validate_nodup (df : DFrame) :
    ((validate_and_clean_df df).1).Nodup := by
  simp only [validate_and_clean_df, dropDupsFirst]
  exact dropDupsFirstAux_nodup _ _

lemma validate_fst_nodup (df : DFrame) :
    ((validate_and_clean_df df).1.map Prod.fst).Nodup := by
  refine List.Nodup.map_on ?_ (validate_nodup df)
  intro x hx y hy hxy
  have hxs := mem_validate_shape df x hx
  have hys := mem_validate_shape df y hy
  exact Prod.ext hxy (by rw [hxs.2, hys.2, hxy])

/-! ### Claims about the batch validator -/

/-- C2: for every input batch, `validate_and_clean_df` returns the cleaned
rows in their original relative order (the underlying rows form a
subsequence of the input rows) together with a dropped count satisfying
`len(cleaned) + dropped_count = len(input)`. -/
theorem validate_and_clean_df_order_and_count (df : DFrame) :
    ((validate_and_clean_df df).1.map Prod.fst).Sublist df.rows ∧
    (validate_and_clean_df df).1.length + (validate_and_clean_df df).2
      = df.rows.length := by
  have hsub : ((validate_and_clean_df df).1).Sublist
      ((validRows df).map (fun r => (r, flagOf df r))) := by
    simp only [validate_and_clean_df, dropDupsFirst]
    exact dropDupsFirstAux_sublist _ _
  constructor
  · have h1 := hsub.map Prod.fst
    rw [List.map_map] at h1
    have hcomp : (Prod.fst ∘ fun r => (r, flagOf df r)) = id := rfl
    rw [hcomp, List.map_id] at h1
    exact h1.trans (validRows_sublist df)
  · have hle : (validate_and_clean_df df).1.length ≤ df.rows.length := by
      have h := hsub.length_le
      rw [List.length_map] at h
      exact h.trans (validRows_sublist df).length_le
    have h2 : (validate_and_clean_df df).2
        = df.rows.length - (validate_and_clean_df df).1.length := rfl
    omega

/-- C3: every row surviving `validate_and_clean_df` has a vessel identifier
that is exactly 9 ASCII digits, a latitude in [-90, 90], a longitude in
[-180, 180], and a present timestamp. -/
theorem validate_and_clean_df_row_invariants (df : DFrame)
    (p : AisRow × String) (hp : p ∈ (validate_and_clean_df df).1) :
    (∃ s, p.1.MMSI = some s ∧ s.length = 9 ∧ s.toList.all Char.isDigit = true) ∧
    (∃ a, p.1.LAT = some a ∧ -90 ≤ a ∧ a ≤ 90) ∧
    (∃ o, p.1.LON = some o ∧ -180 ≤ o ∧ o ≤ 180) ∧
    p.1.BaseDateTime.isSome = true := by
  obtain ⟨hm, -⟩ := mem_validate_shape df p hp
  obtain ⟨h1, h2, h3⟩ := mem_validRows_props df p.1 hm
  have hLL : (∃ a, p.1.LAT = some a ∧ -90 ≤ a ∧ a ≤ 90) ∧
      (∃ o, p.1.LON = some o ∧ -180 ≤ o ∧ o ≤ 180) := by
    split at h3
    · rename_i a o hA hO
      simp only [Bool.and_eq_true, decide_eq_true_eq] at h3
      exact ⟨⟨a, hA, h3.1.1.1, h3.1.1.2⟩, ⟨o, hO, h3.1.2, h3.2⟩⟩
    · exact absurd h3 (by simp)
  refine ⟨?_, hLL.1, hLL.2, ?_⟩
  · split at h2
    · rename_i s hs
      simp only [is_valid_mmsi, Bool.and_eq_true, beq_iff_eq,
        Bool.not_eq_true'] at h2
      exact ⟨s, hs, h2.2, h2.1.2⟩
    · exact absurd h2 (by simp)
  · rw [Bool.and_eq_true] at h1
    exact h1.2

/-- Witness for C3 at a concrete batch. -/
theorem validate_and_clean_df_row_invariants_witness :
    ((rowA, "") ∈ (validate_and_clean_df ⟨[], [rowA]⟩).1) ∧
    ((∃ s, (rowA, "").1.MMSI = some s ∧ s.length = 9 ∧
        s.toList.all Char.isDigit = true) ∧
     (∃ a, (rowA, "").1.LAT = some a ∧ -90 ≤ a ∧ a ≤ 90) ∧
     (∃ o, (rowA, "").1.LON = some o ∧ -180 ≤ o ∧ o ≤ 180) ∧
     (rowA, "").1.BaseDateTime.isSome = true) :=
  ⟨by decide, validate_and_clean_df_row_invariants ⟨[], [rowA]⟩ (rowA, "")
    (by decide)⟩

/-- C4 counterexample: `validate_batch` is not idempotent as claimed.  The
batch of two fully identical valid rows is cleaned to a single row flagged
`same_time_duplicate`; re-validating that cleaned output (whose
`flag_reason` column the function overwrites before use, so only the
underlying row matters) recomputes an empty flag, because the collapsed
duplicate no longer shares its key with another row — so
`validate_batch(cleaned) ≠ (cleaned, 0)`. -/
theorem validate_and_clean_df_idempotence_counterexample :
    validate_and_clean_df ⟨[], [rowA, rowA]⟩
      = ([(rowA, "same_time_duplicate")], 1)
    ∧ validate_and_clean_df ⟨[], [rowA]⟩ = ([(rowA, "")], 0)
    ∧ ((rowA, "") : AisRow × String) ≠ (rowA, "same_time_duplicate") :=
  ⟨by decide, by decide, by decide⟩

/-- C4 (amended): re-validating the cleaned output of a prior call drops no
row: the returned rows are the same underlying records in the same order and
the dropped count is `0`.  (Only the `same_time_duplicate` flag can change,
when a collapsed exact duplicate no longer shares its key with another
surviving row.) -/
theorem validate_and_clean_df_stable (df : DFrame) :
    (validate_and_clean_df
        ⟨df.cols, (validate_and_clean_df df).1.map Prod.fst⟩).1.map Prod.fst
      = (validate_and_clean_df df).1.map Prod.fst
    ∧ (validate_and_clean_df
        ⟨df.cols, (validate_and_clean_df df).1.map Prod.fst⟩).2 = 0 := by
  set R := (validate_and_clean_df df).1.map Prod.fst with hR
  have hprops : ∀ r ∈ R,
      (r.MMSI.isSome && r.BaseDateTime.isSome) = true ∧
      (match r.MMSI with
        | some s => is_valid_mmsi s
        | none => false) = true ∧
      (match r.LAT, r.LON with
        | some a, some o =>
            decide (-90 ≤ a) && decide (a ≤ 90) &&
            decide (-180 ≤ o) && decide (o ≤ 180)
        | _, _ => false) = true := by
    intro r hr
    rw [hR] at hr
    obtain ⟨p, hp, rfl⟩ := List.mem_map.1 hr
    exact mem_validRows_props df p.1 (mem_validate_shape df p hp).1
  have hvalid : validRows ⟨df.cols, R⟩ = R := by
    simp only [validRows]
    rw [List.filter_eq_self.2 (fun r hr => (hprops r hr).1)]
    rw [List.filter_eq_self.2 (fun r hr => (hprops r hr).2.1)]
    rw [List.filter_eq_self.2 (fun r hr => (hprops r hr).2.2)]
  have hRnd : R.Nodup := validate_fst_nodup df
  have hflagged :
      (R.map (fun r => (r, flagOf ⟨df.cols, R⟩ r))).Nodup :=
    hRnd.map (fun a b h => congrArg Prod.fst h)
  have hdedup :
      dropDupsFirst (R.map (fun r => (r, flagOf ⟨df.cols, R⟩ r)))
        = R.map (fun r => (r, flagOf ⟨df.cols, R⟩ r)) :=
    dropDupsFirstAux_eq_self [] _ hflagged
      (fun x _ h => absurd h (List.not_mem_nil x))
  constructor
  · show (validate_and_clean_df ⟨df.cols, R⟩).1.map Prod.fst = R
    simp only [validate_and_clean_df]
    rw [hvalid, hdedup, List.map_map]
    have hcomp :
        (Prod.fst ∘ fun r => (r, flagOf ⟨df.cols, R⟩ r)) = id := rfl
    rw [hcomp, List.map_id]
  · show (validate_and_clean_df ⟨df.cols, R⟩).2 = 0
    simp only [validate_and_clean_df]
    rw [hvalid, hdedup]
    simp only [List.length_map]
    exact Nat.sub_self _

/-- C5: every surviving row whose `(MMSI, BaseDateTime)` key is shared by at
least one other row of the validated batch is retained in the cleaned output
and its flag string contains `same_time_duplicate`; exact full-row
duplicates collapse (the cleaned output has no duplicate entries); and in
the concrete scenario of two rows differing only in speed-over-ground plus a
third fully identical to the first, the output is exactly the two rows, both
flagged `same_time_duplicate`, with one row dropped. -/
theorem validate_and_clean_df_same_time_duplicates :
    (∀ (df : DFrame) (r : AisRow), r ∈ validRows df →
      2 ≤ (validRows df).countP
          (fun r2 => r2.MMSI = r.MMSI ∧ r2.BaseDateTime = r.BaseDateTime) →
      (r, flagOf df r) ∈ (validate_and_clean_df df).1 ∧
        hasFlag (flagOf df r) "same_time_duplicate" = true)
    ∧ (∀ df : DFrame, ((validate_and_clean_df df).1).Nodup)
    ∧ validate_and_clean_df ⟨[], [rowA, rowB, rowA]⟩
        = ([(rowA, "same_time_duplicate"), (rowB, "same_time_duplicate")], 1) := by
  refine ⟨?_, validate_nodup, by decide⟩
  intro df r hr hcount
  constructor
  · simp only [validate_and_clean_df, dropDupsFirst]
    refine (mem_dropDupsFirstAux _ _ _).2
      ⟨List.mem_map.2 ⟨r, hr, rfl⟩, List.not_mem_nil _⟩
  · simp only [flagOf]
    rw [if_pos hcount]
    split_ifs <;> decide

/-- Witness for C5's universal part at a concrete batch. -/
theorem validate_and_clean_df_same_time_duplicates_witness :
    (rowA ∈ validRows ⟨[], [rowA, rowB, rowA]⟩) ∧
    (2 ≤ (validRows ⟨[], [rowA, rowB, rowA]⟩).countP
        (fun r2 => r2.MMSI = rowA.MMSI ∧ r2.BaseDateTime = rowA.BaseDateTime)) ∧
    ((rowA, flagOf ⟨[], [rowA, rowB, rowA]⟩ rowA)
        ∈ (validate_and_clean_df ⟨[], [rowA, rowB, rowA]⟩).1 ∧
      hasFlag (flagOf ⟨[], [rowA, rowB, rowA]⟩ rowA) "same_time_duplicate"
        = true) :=
  ⟨by decide, by decide,
    validate_and_clean_df_same_time_duplicates.1 ⟨[], [rowA, rowB, rowA]⟩
      rowA (by decide) (by decide)⟩

/-! ### Claims about the feature encoder -/

lemma rows_to_geojson_features_aux (rows : List Row) :
    ∀ acc : List Feature,
      rows.foldl
        (fun acc r =>
          match r.lat, r.lon with
          | some la, some lo =>
              acc ++ [{ coordinates := [lo, la],
                        time := r.timestamp.map isoformat,
                        sog := r.sog, cog := r.cog, heading := r.heading }]
          | _, _ => acc)
        acc
      = acc ++ (rows.filter (fun r => r.lat.isSome && r.lon.isSome)).map
          (fun r => { coordinates := [r.lon.getD 0, r.lat.getD 0],
                      time := r.timestamp.map isoformat,
                      sog := r.sog, cog := r.cog, heading := r.heading }) := by
  induction rows with
  | nil => intro acc; simp
  | cons r rest ih =>
    intro acc
    rw [List.foldl_cons, List.filter_cons]
    cases hla : r.lat with
    | none =>
      simp only [hla, Option.isSome_none, Bool.false_and, if_neg]
      cases hlo : r.lon with
      | none => exact ih acc
      | some lo => exact ih acc
    | some la =>
      cases hlo : r.lon with
      | none =>
        simp only [hla, hlo, Option.isSome_none, Option.isSome_some,
          Bool.true_and, Bool.and_false, if_neg]
        exact ih acc
      | some lo =>
        simp only [hla, hlo, Option.isSome_some, Bool.true_and, if_pos]
        rw [ih (acc ++ [_]), List.map_cons, List.append_assoc]
        simp [hla, hlo]

/-- C9: the feature encoder produces, in input order, exactly one feature
for each record that has both coordinates (records missing either are
skipped, records missing motion attributes are kept with null properties);
each feature's geometry coordinates are `[longitude, latitude]` and its
`time` property is the normalized rendering of the timestamp when present,
else null. -/
theorem rows_to_geojson_features_spec (rows : List Row) :
    rows_to_geojson_features rows
      = (rows.filter (fun r => r.lat.isSome && r.lon.isSome)).map
          (fun r => { coordinates := [r.lon.getD 0, r.lat.getD 0],
                      time := r.timestamp.map isoformat,
                      sog := r.sog, cog := r.cog, heading := r.heading }) := by
  rw [rows_to_geojson_features, rows_to_geojson_features_aux rows []]
  rfl

/-! ### Claims about the outlier filter -/

/-- The relation guaranteed between two consecutive points of a sanitized
track: the earlier point has coordinates, both have timestamps, time
strictly increases, and the derived speed from the earlier point to the
later one does not exceed the threshold. -/
noncomputable def stepOk (max_speed_kph : ℝ) (a b : Row) : Prop :=
  a.lat.isSome = true ∧ a.lon.isSome = true ∧
  ∃ ta tb, a.timestamp = some ta ∧ b.timestamp = some tb ∧ ta < tb ∧
    speedKph ((a.lat.getD 0 : ℚ) : ℝ) ((a.lon.getD 0 : ℚ) : ℝ)
      ((b.lat.getD 0 : ℚ) : ℝ) ((b.lon.getD 0 : ℚ) : ℝ)
      (((tb - ta : ℚ) : ℝ)) ≤ max_speed_kph

/-- The loop invariant of `filter_outliers_by_speed`: the accumulated output
is a chain for `stepOk`, and the anchor is exactly the last accepted row,
which has all of latitude, longitude and timestamp present. -/
noncomputable def stateInv (max_speed_kph : ℝ) (st : List Row × Option Row) : Prop :=
  List.Chain' (stepOk max_speed_kph) st.1 ∧
  (match st.2 with
   | none => st.1 = []
   | some p => st.1.getLast? = some p ∧ p.lat.isSome = true ∧
       p.lon.isSome = true ∧ p.timestamp.isSome = true)

lemma filterStep_preserves_inv (max_speed_kph : ℝ)
    (st : List Row × Option Row) (r : Row) (h : stateInv max_speed_kph st) :
    stateInv max_speed_kph (filterStep max_speed_kph st r) := by
  cases hla : r.lat with
  | none => simp only [filterStep, hla]; exact h
  | some la =>
  cases hlo : r.lon with
  | none => simp only [filterStep, hla, hlo]; exact h
  | some lo =>
  cases hts : r.timestamp with
  | none => simp only [filterStep, hla, hlo, hts]; exact h
  | some ts =>
  obtain ⟨hchain, hanchor⟩ := h
  cases hprev : st.2 with
  | none =>
    rw [hprev] at hanchor
    dsimp only at hanchor
    simp only [filterStep, hla, hlo, hts, hprev]
    unfold stateInv
    refine ⟨?_, ?_⟩
    · rw [hanchor]
      exact List.chain'_singleton r
    · rw [hanchor]
      simp [hla, hlo, hts]
  | some prev =>
    rw [hprev] at hanchor
    dsimp only at hanchor
    obtain ⟨hlastp, hplat, hplon, hpts⟩ := hanchor
    cases hptse : prev.timestamp with
    | none => rw [hptse] at hpts; simp at hpts
    | some pts =>
    simp only [filterStep, hla, hlo, hts, hprev, hptse]
    by_cases hdt : ts - pts ≤ 0
    · rw [if_pos hdt]
      exact ⟨hchain, by rw [hprev]; exact ⟨hlastp, hplat, hplon, hpts⟩⟩
    · rw [if_neg hdt]
      by_cases hsp : max_speed_kph <
          speedKph ((prev.lat.getD 0 : ℚ) : ℝ) ((prev.lon.getD 0 : ℚ) : ℝ)
            ((la : ℚ) : ℝ) ((lo : ℚ) : ℝ) (((ts - pts : ℚ) : ℝ))
      · rw [if_pos hsp]
        exact ⟨hchain, by rw [hprev]; exact ⟨hlastp, hplat, hplon, hpts⟩⟩
      · rw [if_neg hsp]
        unfold stateInv
        refine ⟨?_, ?_⟩
        · rw [List.chain'_append]
          refine ⟨hchain, List.chain'_singleton r, ?_⟩
          intro x hx y hy
          rw [hlastp, Option.mem_some_iff] at hx
          rw [List.head?_cons, Option.mem_some_iff] at hy
          subst hx; subst hy
          refine ⟨hplat, hplon, pts, ts, hptse, hts, by linarith, ?_⟩
          have hgd : ((r.lat.getD 0 : ℚ) : ℝ) = ((la : ℚ) : ℝ) := by
            rw [hla]; rfl
          have hgd2 : ((r.lon.getD 0 : ℚ) : ℝ) = ((lo : ℚ) : ℝ) := by
            rw [hlo]; rfl
          rw [hgd, hgd2]
          exact not_lt.1 hsp
        · simp only [List.getLast?_concat]
          simp [hla, hlo, hts]

lemma foldl_filterStep_inv (max_speed_kph : ℝ) :
    ∀ (rows : List Row) (st : List Row × Option Row),
      stateInv max_speed_kph st →
      stateInv max_speed_kph (rows.foldl (filterStep max_speed_kph) st) := by
  intro rows
  induction rows with
  | nil => intro st h; exact h
  | cons r rest ih =>
    intro st h
    rw [List.foldl_cons]
    exact ih _ (filterStep_preserves_inv max_speed_kph st r h)

/-- C7: the output of `filter_outliers_by_speed` is a chain: every pair of
consecutive output points has strictly increasing timestamps (every
candidate with non-positive elapsed time from the anchor is discarded) and a
derived speed that does not exceed the configured threshold. -/
theorem filter_outliers_by_speed_chain (rows : List Row)
    (max_speed_kph : ℝ) :
    List.Chain' (stepOk max_speed_kph)
      (filter_outliers_by_speed rows max_speed_kph) := by
  have h := foldl_filterStep_inv max_speed_kph rows ([], none)
    ⟨List.chain'_nil, rfl⟩
  exact h.1

/-! ### The concrete outlier scenario -/

/-- The scenario's first position: `lat 1.0, lon 2.0` at `t0 = 0` s. -/
def track0 : Row :=
  { lat := some 1, lon := some 2, timestamp := some 0,
    sog := none, cog := none, heading := none }

/-- The scenario's second position: `lat 1.5, lon 2.5` ten seconds later. -/
def track1 : Row :=
  { lat := some (3/2), lon := some (5/2), timestamp := some 10,
    sog := none, cog := none, heading := none }

set_option maxHeartbeats 1000000 in
lemma atan2_sqrt_eq_arcsin (a : ℝ) (h0 : 0 ≤ a) (h1 : a < 1) :
    atan2 (Real.sqrt a) (Real.sqrt (1 - a)) = Real.arcsin (Real.sqrt a) := by
  have hpos : 0 < Real.sqrt (1 - a) := Real.sqrt_pos.2 (by linarith)
  rw [atan2, if_pos hpos]
  have hmem : Real.sqrt a ∈ Set.Ioo (-(1 : ℝ)) 1 := by
    constructor
    · have := Real.sqrt_nonneg a; linarith
    · rw [show (1 : ℝ) = Real.sqrt 1 from (Real.sqrt_one).symm]
      exact Real.sqrt_lt_sqrt h0 h1
  rw [Real.arcsin_eq_arctan hmem]
  rw [Real.sq_sqrt h0]

set_option maxHeartbeats 2000000 in
/-- In the scenario, the two positions are about 78.6 km apart; a crude
lower bound of 5/9 km (which is all that is needed against the 200 km/h
threshold over 10 seconds) follows from elementary bounds on `sin`, `cos`,
`arcsin` and `π`. -/
lemma haversine_scenario : (5 / 9 : ℝ) < haversine_km 1 2 (3/2) (5/2) := by
  have hπp := Real.pi_pos
  have hπl : Real.pi < 3.15 := Real.pi_lt_d2
  have hπg : (3.141592 : ℝ) < Real.pi := Real.pi_gt_d6
  simp only [haversine_km]
  have e1 : (radians (3/2) - radians 1) / 2 = Real.pi / 720 := by
    simp only [radians]; ring
  have e2 : (radians (5/2) - radians 2) / 2 = Real.pi / 720 := by
    simp only [radians]; ring
  rw [e1, e2]
  set x := Real.pi / 720 with hx
  set s := Real.sin x with hs
  have hxpos : 0 < x := by rw [hx]; positivity
  have hxle : x ≤ 1 := by rw [hx]; nlinarith
  have hxl : x < (3.15 : ℝ) / 720 := by rw [hx]; nlinarith
  have hsx : (1/250 : ℝ) < s := by
    have h1 := Real.sin_gt_sub_cube hxpos hxle
    have hcube : x ^ 3 ≤ ((3.15 : ℝ) / 720) ^ 3 :=
      pow_le_pow_left₀ (le_of_lt hxpos) (le_of_lt hxl) 3
    have hxg : (3.141592 : ℝ) / 720 < x := by rw [hx]; nlinarith
    rw [hs]; nlinarith
  have hs0 : (0:ℝ) ≤ s := by nlinarith
  have hslt : s < x := by rw [hs]; exact Real.sin_lt hxpos
  have hc1a : 0 ≤ Real.cos (radians 1) := by
    rw [show radians 1 = Real.pi / 180 by simp only [radians]; ring]
    apply Real.cos_nonneg_of_mem_Icc
    constructor <;> [nlinarith; nlinarith]
  have hc2a : 0 ≤ Real.cos (radians (3/2)) := by
    rw [show radians (3/2) = Real.pi / 120 by simp only [radians]; ring]
    apply Real.cos_nonneg_of_mem_Icc
    constructor <;> [nlinarith; nlinarith]
  have hc1b : Real.cos (radians 1) ≤ 1 := Real.cos_le_one _
  have hc2b : Real.cos (radians (3/2)) ≤ 1 := Real.cos_le_one _
  set A := s ^ 2 + Real.cos (radians 1) * Real.cos (radians (3/2)) * s ^ 2
    with hA
  have hcc : 0 ≤ Real.cos (radians 1) * Real.cos (radians (3/2)) :=
    mul_nonneg hc1a hc2a
  have hcc1 : Real.cos (radians 1) * Real.cos (radians (3/2)) ≤ 1 :=
    mul_le_one₀ hc1b hc2a hc2b
  have hA0 : s ^ 2 ≤ A := by rw [hA]; nlinarith [sq_nonneg s]
  have hA0' : (0:ℝ) ≤ A := le_trans (sq_nonneg s) hA0
  have hA1 : A < 1 := by rw [hA]; nlinarith [sq_nonneg s]
  rw [atan2_sqrt_eq_arcsin A hA0' hA1]
  have h1 : s ≤ Real.sqrt A := by
    have h := Real.sqrt_le_sqrt hA0
    rwa [Real.sqrt_sq hs0] at h
  have h2 : Real.sqrt A < 1 := by
    rw [show (1:ℝ) = Real.sqrt 1 from (Real.sqrt_one).symm]
    exact Real.sqrt_lt_sqrt hA0' hA1
  have h3 : Real.sqrt A ≤ Real.arcsin (Real.sqrt A) := by
    rcases eq_or_lt_of_le (Real.sqrt_nonneg A) with heq | hlt
    · rw [← heq]; simp
    · have hy : 0 < Real.arcsin (Real.sqrt A) := Real.arcsin_pos.2 hlt
      have hsin : Real.sin (Real.arcsin (Real.sqrt A)) = Real.sqrt A :=
        Real.sin_arcsin (by linarith [Real.sqrt_nonneg A]) (le_of_lt h2)
      have hlt2 := Real.sin_lt hy
      rw [hsin] at hlt2
      linarith
  nlinarith [Real.sqrt_nonneg A]

/-- The derived speed in the scenario exceeds the 200 km/h threshold. -/
lemma scenario_speed : (200 : ℝ) < speedKph 1 2 (3/2) (5/2) 10 := by
  have h := haversine_scenario
  rw [speedKph]
  have e : haversine_km 1 2 (3/2) (5/2) / ((10:ℝ) / 3600)
      = haversine_km 1 2 (3/2) (5/2) * 360 := by ring
  rw [e]
  nlinarith

/-- C6: when the derived speed from the current anchor to a candidate with
positive elapsed time exceeds `max_speed_kph`, the candidate is discarded
and the state (output and anchor) is unchanged; otherwise the candidate is
appended and becomes the new anchor.  In particular, for the vessel with a
point at (lat 1.0, lon 2.0) and a second point 10 seconds later at
(lat 1.5, lon 2.5), the sanitizer output is exactly the first point. -/
theorem filterStep_speed_gate :
    (∀ (cleaned : List Row) (prev r : Row) (max_speed_kph : ℝ)
      (la lo ts pts : ℚ),
      r.lat = some la → r.lon = some lo → r.timestamp = some ts →
      prev.timestamp = some pts → 0 < ts - pts →
      ((max_speed_kph <
          speedKph ((prev.lat.getD 0 : ℚ) : ℝ) ((prev.lon.getD 0 : ℚ) : ℝ)
            ((la : ℚ) : ℝ) ((lo : ℚ) : ℝ) (((ts - pts : ℚ) : ℝ)) →
        filterStep max_speed_kph (cleaned, some prev) r
          = (cleaned, some prev)) ∧
       (¬ max_speed_kph <
          speedKph ((prev.lat.getD 0 : ℚ) : ℝ) ((prev.lon.getD 0 : ℚ) : ℝ)
            ((la : ℚ) : ℝ) ((lo : ℚ) : ℝ) (((ts - pts : ℚ) : ℝ)) →
        filterStep max_speed_kph (cleaned, some prev) r
          = (cleaned ++ [r], some r))))
    ∧ filter_outliers_by_speed [track0, track1] 200 = [track0] := by
  constructor
  · intro cleaned prev r max_speed_kph la lo ts pts hla hlo hts hpts hdt
    constructor
    · intro hsp
      simp only [filterStep, hla, hlo, hts, hpts]
      rw [if_neg (by linarith : ¬ ts - pts ≤ 0), if_pos hsp]
    · intro hsp
      simp only [filterStep, hla, hlo, hts, hpts]
      rw [if_neg (by linarith : ¬ ts - pts ≤ 0), if_neg hsp]
  · rw [filter_outliers_by_speed, List.foldl_cons, List.foldl_cons,
      List.foldl_nil]
    have hstep1 : filterStep 200 ([], none) track0 = ([track0], some track0) := by
      simp [filterStep, track0]
    rw [hstep1]
    have hsp : (200 : ℝ) <
        speedKph ((track0.lat.getD 0 : ℚ) : ℝ) ((track0.lon.getD 0 : ℚ) : ℝ)
          (((3/2 : ℚ) : ℚ) : ℝ) (((5/2 : ℚ) : ℚ) : ℝ)
          ((((10 : ℚ) - 0 : ℚ) : ℝ)) := by
      have h := scenario_speed
      simp only [track0]
      push_cast
      convert h using 2 <;> norm_num
    have hstep2 : filterStep 200 ([track0], some track0) track1
        = ([track0], some track0) := by
      simp only [filterStep, track1, track0]
      rw [if_neg (by norm_num : ¬ (10 : ℚ) - 0 ≤ 0)]
      rw [if_pos ?hsp2]
      case hsp2 =>
        have h := hsp
        simp only [track0] at h
        convert h using 2
    rw [hstep2]

/-- Witness for C6's universal part, instantiated at the concrete
scenario. -/
theorem filterStep_speed_gate_witness :
    track1.lat = some (3/2) ∧ track1.lon = some (5/2) ∧
    track1.timestamp = some 10 ∧ track0.timestamp = some 0 ∧
    (0 : ℚ) < 10 - 0 ∧
    ((200 : ℝ) <
        speedKph ((track0.lat.getD 0 : ℚ) : ℝ) ((track0.lon.getD 0 : ℚ) : ℝ)
          (((3/2 : ℚ) : ℚ) : ℝ) (((5/2 : ℚ) : ℚ) : ℝ)
          ((((10 : ℚ) - 0 : ℚ) : ℝ)) →
      filterStep 200 ([track0], some track0) track1
        = ([track0], some track0)) :=
  ⟨rfl, rfl, rfl, rfl, by norm_num,
    (filterStep_speed_gate.1 [track0] track0 track1 200 (3/2) (5/2) 10 0
      rfl rfl rfl rfl (by norm_num)).1⟩

end DeepDarshak
